import Mathlib

/-!
Secure key resource of the CDAP Terraform provider.

A shallow embedding of `cdap/resource_secure_key.go` and the properties of its
four lifecycle operations (Create, Read, Delete, Exists).

Conventions of the embedding

* A Go function that returns `error` returns `Option Error` (`none` is `nil`);
  a function that returns `(bool, error)` returns `Bool × Option Error`.
* A Go call that can panic (an unchecked type assertion) yields an `Outcome`,
  which is either a normal return or a panic.
* Every operation returns a `Result`: its outcome, the resource data after the
  call, and the HTTP requests it handed to `httpCall`, in order.
* Helpers of the provider that live in other files of the package (`urlJoin`,
  `httpCall`, `defaultNamespace`, `Config`) and the library calls whose result
  depends on data outside the function (`url` parsing inside
  `http.NewRequest`, `json.Unmarshal`) are fields of `Env`; the theorems hold
  for every `Env`.
-/

namespace Cdap

/-! Section: Go values. -/

/-- The body of an HTTP response: a Go `[]byte`. -/
abbrev Bytes := List UInt8

/-- Go `error` values, by the three kinds the operations can meet. -/
inductive Error where
  | RequestConstructionError (msg : String)
  | RemoteCallError (status : Option Nat) (detail : Bytes)
  | DecodeError (msg : String)
  deriving DecidableEq, Repr

/-- The outcome of a Go call: it returns a value or it panics. -/
inductive Outcome (α : Type) where
  | ret (a : α)
  | panic (msg : String)
  deriving DecidableEq, Repr

/-- The `interface{}` values that `ResourceData.Get` hands out for this
resource: `nil`, a `string`, or a `map[string]interface{}` of strings. -/
inductive Value where
  | nil
  | str (s : String)
  | map (m : List (String × String))
  deriving DecidableEq, Repr

/-- The unchecked type assertion `v.(string)`: it panics unless `v` holds a
string. -/
def Value.assertString : Value → Outcome String
  | .str s => .ret s
  | .nil => .panic "interface conversion: interface \x7b\x7d is nil, not string"
  | .map _ =>
    .panic "interface conversion: interface \x7b\x7d is map[string]interface \x7b\x7d, not string"

/-! Section: the plugin SDK: schema and resource data. -/

/-- The two `schema.ValueType`s this resource uses. -/
inductive ValueType where
  | TypeString
  | TypeMap
  deriving DecidableEq, Repr

/-- The zero value of a schema type, `ValueType.Zero` of the SDK. -/
def ValueType.Zero : ValueType → Value
  | .TypeString => .str ""
  | .TypeMap => .map []

/-- Whether a value has the Go type that a schema type stores. -/
def ValueType.holds : ValueType → Value → Bool
  | .TypeString, .str _ => true
  | .TypeMap, .map _ => true
  | _, _ => false

/-- The fields of `schema.Schema` that the resource sets. `DefaultFunc` is the
Go closure `func() (interface{}, error)`. -/
structure Schema where
  Type_ : ValueType
  Description : String := ""
  Required : Bool := false
  Optional : Bool := false
  ForceNew : Bool := false
  DefaultFunc : Option (Unit → Value × Option Error) := none

/-- The SDK's `schema.ResourceData`: the schema it was built over, the value of
each attribute that has one (from configuration, plan and state), and the
resource identifier. -/
structure ResourceData where
  schema : List (String × Schema)
  raw : List (String × Value)
  id : String

/-- The SDK's `ResourceData.Get`, which by its documentation "returns the data
for the given key, or nil if the key doesn't exist in the schema": a key the
schema does not declare reads as `nil`; a declared attribute reads as its
value, or else as the zero value of its type. `Get` does not consult
`DefaultFunc`: the SDK fills a default in when it plans the data from a
configuration (`ResourceData.ofConfig` below). -/
def ResourceData.Get (d : ResourceData) (key : String) : Value :=
  match d.schema.lookup key with
  | none => .nil
  | some s =>
    match d.raw.lookup key with
    | some v => v
    | none => s.Type_.Zero

/-- The SDK's `ResourceData.SetId`. -/
def ResourceData.SetId (d : ResourceData) (v : String) : ResourceData :=
  { d with id := v }

/-- Every stored attribute is declared by the schema and has its declared
type: what the SDK guarantees of the data it hands to an operation. -/
def ResourceData.wellTyped (d : ResourceData) : Bool :=
  d.raw.all fun kv =>
    match d.schema.lookup kv.1 with
    | none => false
    | some s => s.Type_.holds kv.2

/-- The defaults the SDK adds when it plans resource data from a
configuration: for each declared attribute that has a `DefaultFunc` and no
value in the configuration, the value the function returns. -/
def schemaDefaults (config : List (String × Value)) :
    List (String × Schema) → List (String × Value)
  | [] => []
  | (key, s) :: rest =>
    match s.DefaultFunc with
    | none => schemaDefaults config rest
    | some f =>
      match config.lookup key with
      | some _ => schemaDefaults config rest
      | none => (key, (f ()).1) :: schemaDefaults config rest

/-- The resource data the SDK plans from a configuration: a configured value
is kept as it is (an empty string too), and an attribute the configuration
leaves out gets the default of its schema, if it has one. -/
def ResourceData.ofConfig (schema : List (String × Schema))
    (config : List (String × Value)) (id : String) : ResourceData :=
  { schema := schema, raw := config ++ schemaDefaults config schema, id := id }

/-! Section: HTTP and the provider configuration. -/

/-- What `http.NewRequest` records of its arguments. A `nil` body is `none`;
`strings.NewReader s` is `some s`. -/
structure Request where
  Method : String
  URL : String
  Body : Option String
  deriving DecidableEq, Repr

/-- The status and body of an HTTP response. -/
structure Response where
  StatusCode : Nat
  Body : Bytes
  deriving DecidableEq, Repr

/-- The transport behind `*http.Client`: what `client.Do` yields for a
request, a response or a transport failure. -/
abbrev HttpClient := Request → Except Error Response

/-- The provider's `Config`, by the two fields the resource reads. -/
structure Config where
  host : String
  httpClient : HttpClient

/-- The `m interface{}` argument of an operation: the provider's `*Config`, or
any other value. -/
inductive Handle where
  | config (c : Config)
  | other (tag : String)

/-- The unchecked type assertion `m.(*Config)`. -/
def Handle.assertConfig : Handle → Outcome Config
  | .config c => .ret c
  | .other _ => .panic "interface conversion: interface \x7b\x7d is not *cdap.Config"

/-- One decoded record of the listing, the local `secureKey` struct of
`resourceSecureKeyExists`. -/
structure secureKey where
  Name : String
  deriving DecidableEq, Repr

/-! Section: a model of `encoding/json`, as far as decoding the listing into a
`[]secureKey` goes. `Env.jsonUnmarshal` is a parameter of the operations; this
model is the instance the concrete examples run. -/

namespace Json

/-- The lexical tokens of a JSON text. A number carries no value: the decoder
of the listing never reads one. -/
inductive Token where
  | beginObject
  | endObject
  | beginArray
  | endArray
  | colon
  | comma
  | string (s : String)
  | number
  | true_
  | false_
  | null
  deriving DecidableEq, Repr

/-- A JSON value. -/
inductive Value where
  | null
  | bool (b : Bool)
  | number
  | string (s : String)
  | array (elems : List Value)
  | object (members : List (String × Value))

/-- The value of a hexadecimal digit, if the byte is one. -/
def hexDigit (c : Nat) : Option Nat :=
  if 48 ≤ c ∧ c ≤ 57 then some (c - 48)
  else if 97 ≤ c ∧ c ≤ 102 then some (c - 87)
  else if 65 ≤ c ∧ c ≤ 70 then some (c - 55)
  else none

/-- The function `getu4` on the four bytes after a backslash and `u`. -/
def getu4 (h1 h2 h3 h4 : Nat) : Option Nat :=
  match hexDigit h1, hexDigit h2, hexDigit h3, hexDigit h4 with
  | some a, some b, some c, some e => some (a * 4096 + b * 256 + c * 16 + e)
  | _, _, _, _ => none

/-- The rune `unicode.ReplacementChar`. -/
def replacementChar : Char := Char.ofNat 0xFFFD

/-- A continuation byte of a UTF-8 sequence. -/
def isCont (c : Nat) : Bool := 0x80 ≤ c ∧ c ≤ 0xBF

/-- The function `utf8.DecodeRune` at the head of a string whose first byte is
`b0 ≥ 0x80`: the rune and the number of bytes it takes, or the replacement
rune and one byte when the head is not a well-formed sequence. -/
def decodeRune (b0 : Nat) (rest : List Nat) : Char × Nat :=
  if 0xC2 ≤ b0 ∧ b0 ≤ 0xDF then
    match rest with
    | b1 :: _ =>
      if isCont b1 then (Char.ofNat ((b0 - 0xC0) * 64 + (b1 - 0x80)), 2)
      else (replacementChar, 1)
    | _ => (replacementChar, 1)
  else if 0xE0 ≤ b0 ∧ b0 ≤ 0xEF then
    match rest with
    | b1 :: b2 :: _ =>
      let lo := if b0 = 0xE0 then 0xA0 else 0x80
      let hi := if b0 = 0xED then 0x9F else 0xBF
      if lo ≤ b1 ∧ b1 ≤ hi ∧ isCont b2 then
        (Char.ofNat ((b0 - 0xE0) * 4096 + (b1 - 0x80) * 64 + (b2 - 0x80)), 3)
      else (replacementChar, 1)
    | _ => (replacementChar, 1)
  else if 0xF0 ≤ b0 ∧ b0 ≤ 0xF4 then
    match rest with
    | b1 :: b2 :: b3 :: _ =>
      let lo := if b0 = 0xF0 then 0x90 else 0x80
      let hi := if b0 = 0xF4 then 0x8F else 0xBF
      if lo ≤ b1 ∧ b1 ≤ hi ∧ isCont b2 ∧ isCont b3 then
        (Char.ofNat ((b0 - 0xF0) * 262144 + (b1 - 0x80) * 4096 + (b2 - 0x80) * 64
          + (b3 - 0x80)), 4)
      else (replacementChar, 1)
    | _ => (replacementChar, 1)
  else (replacementChar, 1)

/-- The rune of a simple escape `\c`. -/
def simpleEscape (c : Nat) : Option Char :=
  if c = 34 then some (Char.ofNat 34)
  else if c = 92 then some (Char.ofNat 92)
  else if c = 47 then some (Char.ofNat 47)
  else if c = 98 then some (Char.ofNat 8)
  else if c = 102 then some (Char.ofNat 12)
  else if c = 110 then some (Char.ofNat 10)
  else if c = 114 then some (Char.ofNat 13)
  else if c = 116 then some (Char.ofNat 9)
  else none

/-- The escape `\uXXXX` at the head of a string, if there is one: its 16-bit
value. -/
def leadingU4 : List Nat → Option Nat
  | 92 :: 117 :: h1 :: h2 :: h3 :: h4 :: _ => getu4 h1 h2 h3 h4
  | _ => none

/-- The function `unquote` on the bytes between the quotes of a string literal
that the scanner accepted. `skip` counts bytes of the current rune or escape
that are still to be passed over. -/
def unquote : Nat → List Nat → List Char
  | _, [] => []
  | skip + 1, _ :: rest => unquote skip rest
  | 0, c :: rest =>
    if c = 92 then
      match rest with
      | [] => []
      | e :: rest1 =>
        if e = 117 then
          match rest1 with
          | h1 :: h2 :: h3 :: h4 :: rest2 =>
            match getu4 h1 h2 h3 h4 with
            | none => []
            | some rr =>
              if 0xD800 ≤ rr ∧ rr < 0xE000 then
                match leadingU4 rest2 with
                | some rr1 =>
                  if rr < 0xDC00 ∧ 0xDC00 ≤ rr1 ∧ rr1 < 0xE000 then
                    Char.ofNat ((rr - 0xD800) * 1024 + (rr1 - 0xDC00) + 0x10000)
                      :: unquote 11 rest
                  else replacementChar :: unquote 5 rest
                | none => replacementChar :: unquote 5 rest
              else Char.ofNat rr :: unquote 5 rest
          | _ => []
        else
          match simpleEscape e with
          | some ch => ch :: unquote 1 rest
          | none => []
    else if c < 0x80 then Char.ofNat c :: unquote 0 rest
    else
      let r := decodeRune c rest
      r.1 :: unquote (r.2 - 1) rest

/-- The states of the scanner inside one token. -/
inductive LexState where
  | start
  | inString (acc : List Nat)
  | inStringEsc (acc : List Nat)
  | inStringEscU (acc : List Nat) (left : Nat)
  | literal (expect : List Nat) (tok : Token)
  | neg
  | zero
  | digits
  | dot
  | dot0
  | e
  | eSign
  | e0

/-- Space, tab, carriage return and line feed. -/
def isSpace (c : Nat) : Bool := c = 32 ∨ c = 9 ∨ c = 13 ∨ c = 10

def isDigit (c : Nat) : Bool := 48 ≤ c ∧ c ≤ 57

/-- One byte at the start of a token. -/
def lexStart (c : Nat) : Option (LexState × List Token) :=
  if isSpace c then some (.start, [])
  else if c = 123 then some (.start, [.beginObject])
  else if c = 125 then some (.start, [.endObject])
  else if c = 91 then some (.start, [.beginArray])
  else if c = 93 then some (.start, [.endArray])
  else if c = 58 then some (.start, [.colon])
  else if c = 44 then some (.start, [.comma])
  else if c = 34 then some (.inString [], [])
  else if c = 45 then some (.neg, [])
  else if c = 48 then some (.zero, [])
  else if isDigit c then some (.digits, [])
  else if c = 116 then some (.literal [114, 117, 101] .true_, [])
  else if c = 102 then some (.literal [97, 108, 115, 101] .false_, [])
  else if c = 110 then some (.literal [117, 108, 108] .null, [])
  else none

/-- The byte after a complete number: the number ends and the byte starts the
next token. -/
def lexAfterNumber (c : Nat) : Option (LexState × List Token) :=
  match lexStart c with
  | some (s, toks) => some (s, .number :: toks)
  | none => none

/-- One step of the scanner: the next state and the tokens the byte
completes, or `none` for a byte the grammar does not allow here. -/
def lexStep : LexState → Nat → Option (LexState × List Token)
  | .start, c => lexStart c
  | .inString acc, c =>
    if c = 34 then some (.start, [.string (String.mk (unquote 0 acc.reverse))])
    else if c = 92 then some (.inStringEsc (c :: acc), [])
    else if c < 32 then none
    else some (.inString (c :: acc), [])
  | .inStringEsc acc, c =>
    if c = 117 then some (.inStringEscU (c :: acc) 4, [])
    else if (simpleEscape c).isSome then some (.inString (c :: acc), [])
    else none
  | .inStringEscU acc left, c =>
    if (hexDigit c).isSome then
      if left = 1 then some (.inString (c :: acc), [])
      else some (.inStringEscU (c :: acc) (left - 1), [])
    else none
  | .literal expect tok, c =>
    match expect with
    | [] => none
    | x :: rest =>
      if c = x then
        if rest.isEmpty then some (.start, [tok]) else some (.literal rest tok, [])
      else none
  | .neg, c =>
    if c = 48 then some (.zero, [])
    else if isDigit c then some (.digits, [])
    else none
  | .zero, c =>
    if c = 46 then some (.dot, [])
    else if c = 101 ∨ c = 69 then some (.e, [])
    else lexAfterNumber c
  | .digits, c =>
    if isDigit c then some (.digits, [])
    else if c = 46 then some (.dot, [])
    else if c = 101 ∨ c = 69 then some (.e, [])
    else lexAfterNumber c
  | .dot, c => if isDigit c then some (.dot0, []) else none
  | .dot0, c =>
    if isDigit c then some (.dot0, [])
    else if c = 101 ∨ c = 69 then some (.e, [])
    else lexAfterNumber c
  | .e, c =>
    if c = 43 ∨ c = 45 then some (.eSign, [])
    else if isDigit c then some (.e0, [])
    else none
  | .eSign, c => if isDigit c then some (.e0, []) else none
  | .e0, c => if isDigit c then some (.e0, []) else lexAfterNumber c

/-- The tokens of the end of input, if a token may end there. -/
def lexEnd : LexState → Option (List Token)
  | .start => some []
  | .zero => some [.number]
  | .digits => some [.number]
  | .dot0 => some [.number]
  | .e0 => some [.number]
  | _ => none

/-- The tokens of a JSON text. -/
def lex : LexState → List Nat → Option (List Token)
  | s, [] => lexEnd s
  | s, c :: rest =>
    match lexStep s c with
    | none => none
    | some (s1, toks) =>
      match lex s1 rest with
      | none => none
      | some more => some (toks ++ more)

/-- An enclosing container that waits for the value being read. -/
inductive Frame where
  | array (elems : List Value)
  | object (members : List (String × Value)) (key : String)

/-- The states of the parser between tokens. Lists of elements and members
hold the latest first. -/
inductive ParseState where
  | beginValue (stack : List Frame)
  | beginValueOrEmpty (stack : List Frame)
  | beginStringOrEmpty (stack : List Frame)
  | beginString (members : List (String × Value)) (stack : List Frame)
  | objectKey (members : List (String × Value)) (key : String) (stack : List Frame)
  | arrayValue (elems : List Value) (stack : List Frame)
  | objectValue (members : List (String × Value)) (stack : List Frame)
  | done (v : Value)

/-- The constant `maxNestingDepth` of the scanner. -/
def maxNestingDepth : Nat := 10000

/-- A value is complete: it goes to the container that waits for it. -/
def complete (v : Value) : List Frame → ParseState
  | [] => .done v
  | .array elems :: stack => .arrayValue (v :: elems) stack
  | .object members key :: stack => .objectValue ((key, v) :: members) stack

/-- A token where a value must start. -/
def parseValue (stack : List Frame) : Token → Option ParseState
  | .string s => some (complete (.string s) stack)
  | .number => some (complete .number stack)
  | .true_ => some (complete (.bool true) stack)
  | .false_ => some (complete (.bool false) stack)
  | .null => some (complete .null stack)
  | .beginArray =>
    if stack.length + 1 ≤ maxNestingDepth then some (.beginValueOrEmpty stack) else none
  | .beginObject =>
    if stack.length + 1 ≤ maxNestingDepth then some (.beginStringOrEmpty stack) else none
  | _ => none

/-- One step of the parser. -/
def parseStep : ParseState → Token → Option ParseState
  | .beginValue stack, t => parseValue stack t
  | .beginValueOrEmpty stack, t =>
    match t with
    | .endArray => some (complete (.array []) stack)
    | _ => parseValue (.array [] :: stack) t
  | .beginStringOrEmpty stack, t =>
    match t with
    | .endObject => some (complete (.object []) stack)
    | .string k => some (.objectKey [] k stack)
    | _ => none
  | .beginString members stack, t =>
    match t with
    | .string k => some (.objectKey members k stack)
    | _ => none
  | .objectKey members key stack, t =>
    match t with
    | .colon => some (.beginValue (.object members key :: stack))
    | _ => none
  | .arrayValue elems stack, t =>
    match t with
    | .comma => some (.beginValue (.array elems :: stack))
    | .endArray => some (complete (.array elems.reverse) stack)
    | _ => none
  | .objectValue members stack, t =>
    match t with
    | .comma => some (.beginString members stack)
    | .endObject => some (complete (.object members.reverse) stack)
    | _ => none
  | .done _, _ => none

/-- The value of a token sequence, if it is exactly one JSON value. -/
def parse : ParseState → List Token → Option Value
  | .done v, [] => some v
  | _, [] => none
  | s, t :: rest =>
    match parseStep s t with
    | none => none
    | some s1 => parse s1 rest

/-- The value of a JSON text, or `none` where `checkValid` reports a syntax
error. -/
def parseText (b : Bytes) : Option Value :=
  match lex .start (b.map UInt8.toNat) with
  | none => none
  | some toks => parse (.beginValue []) toks

/-- Whether an object key selects the field tagged `json:"name"`: the key is
the tag, exactly or up to the case of its (ASCII) letters. -/
def matchesName (key : String) : Bool :=
  key.data.map Char.toLower = "name".data

/-- The kind of a value, as the messages of `UnmarshalTypeError` name it. -/
def kind : Value → String
  | .null => "null"
  | .bool _ => "bool"
  | .number => "number"
  | .string _ => "string"
  | .array _ => "array"
  | .object _ => "object"

/-- The members of an object decoded into a `secureKey`, in order: a member
whose key selects `Name` sets it from a string, leaves it for `null`, and is a
type error for any other value; other members are skipped. -/
def decodeMembers (key : secureKey) : List (String × Value) → Except Error secureKey
  | [] => .ok key
  | (k, v) :: rest =>
    if matchesName k then
      match v with
      | .string s => decodeMembers { key with Name := s } rest
      | .null => decodeMembers key rest
      | other =>
        .error (.DecodeError
          ("json: cannot unmarshal " ++ kind other ++ " into Go struct field .name of type string"))
    else decodeMembers key rest

/-- One element of the listing decoded into a zero `secureKey`. -/
def decodeSecureKey : Value → Except Error secureKey
  | .object members => decodeMembers { Name := "" } members
  | .null => .ok { Name := "" }
  | other =>
    .error (.DecodeError
      ("json: cannot unmarshal " ++ kind other ++ " into Go value of type cdap.secureKey"))

/-- The elements of an array decoded in order, up to the first type error. -/
def decodeElems : List Value → Except Error (List secureKey)
  | [] => .ok []
  | v :: rest =>
    match decodeSecureKey v with
    | .error err => .error err
    | .ok key =>
      match decodeElems rest with
      | .error err => .error err
      | .ok keys => .ok (key :: keys)

/-- A value decoded into a `[]secureKey`: an array decodes by element, `null`
gives the nil slice, any other value is a type error. -/
def decodeSecureKeys : Value → Except Error (List secureKey)
  | .array elems => decodeElems elems
  | .null => .ok []
  | other =>
    .error (.DecodeError
      ("json: cannot unmarshal " ++ kind other ++ " into Go value of type []cdap.secureKey"))

/-- A value that the field `Name` takes: a string, or `null`, which leaves the
field as it is. -/
def nameValueOk : Value → Bool
  | .string _ => true
  | .null => true
  | _ => false

/-- A value that decodes into a `secureKey` without a type error: `null`, or
an object in which every member that selects `Name` holds a string or
`null`. -/
def decodesAsRecord : Value → Bool
  | .object members => members.all fun kv => !matchesName kv.1 || nameValueOk kv.2
  | .null => true
  | _ => false

/-- A value that decodes into a `[]secureKey` without a type error: `null`,
or an array of values that decode into a `secureKey`. -/
def decodesAsListing : Value → Bool
  | .array elems => elems.all decodesAsRecord
  | .null => true
  | _ => false

/-- A record in the words of the spec, `{name: string}`: an object whose
member `name` holds a string. -/
def isRecord : Value → Bool
  | .object members =>
    match members.lookup "name" with
    | some (.string _) => true
    | _ => false
  | _ => false

end Json

/-- The call `json.Unmarshal(b, &secureKeys)` on a fresh `[]secureKey`: a
syntax error when `b` is not one JSON value, else the decoded records or the
first type error. -/
def jsonUnmarshal (b : Bytes) : Except Error (List secureKey) :=
  match Json.parseText b with
  | none => .error (.DecodeError "json: syntax error")
  | some v => Json.decodeSecureKeys v

/-- The bodies that `jsonUnmarshal` takes: a JSON text whose value decodes
into a `[]secureKey` without a type error. -/
def decodableListing (b : Bytes) : Bool :=
  match Json.parseText b with
  | none => false
  | some v => Json.decodesAsListing v

/-- Modelled from the spec: a body "well-formed as the expected sequence
shape", a JSON array each of whose elements is a `{name: string}` record. -/
def wellFormedListing (b : Bytes) : Bool :=
  match Json.parseText b with
  | some (.array elems) => elems.all Json.isRecord
  | _ => false

/-- What the operations take from outside `resource_secure_key.go`. -/
structure Env where
  /-- The package constant `defaultNamespace`. -/
  defaultNamespace : String
  /-- The package helper `urlJoin(base, paths...)`. -/
  urlJoin : String → List String → String
  /-- The package helper `httpCall(client, req)`. -/
  httpCall : HttpClient → Request → Except Error Bytes
  /-- The failure of `url.Parse` inside `http.NewRequest`, if the address has
  one. -/
  urlParseError : String → Option Error
  /-- The result of `json.Unmarshal(b, &secureKeys)` on a fresh
  `[]secureKey`. -/
  jsonUnmarshal : Bytes → Except Error (List secureKey)

/-- The library call `http.NewRequest(method, url, body)` for the three
constant methods the resource uses (each a valid method token): it fails when
the address does not parse and otherwise records its arguments. -/
def NewRequest (env : Env) (method url : String) (body : Option String) :
    Except Error Request :=
  match env.urlParseError url with
  | some err => .error err
  | none => .ok { Method := method, URL := url, Body := body }

/-- What an operation leaves behind: its outcome, the resource data after the
call, and the requests it passed to `httpCall`, in order. -/
structure Result (α : Type) where
  out : Outcome α
  d : ResourceData
  calls : List Request

/-! Section: the operations of `resource_secure_key.go`. -/

/-- The function `resourceSecureKeyCreate` (lines 71-89). -/
def resourceSecureKeyCreate (env : Env) (d : ResourceData) (m : Handle) :
    Result (Option Error) :=
  match m.assertConfig with
  | .panic msg => ⟨.panic msg, d, []⟩
  | .ret config =>
  match (d.Get "name").assertString with
  | .panic msg => ⟨.panic msg, d, []⟩
  | .ret name =>
  match (d.Get "namespace").assertString with
  | .panic msg => ⟨.panic msg, d, []⟩
  | .ret ns =>
  let addr := env.urlJoin config.host ["/v3/namespaces", ns, "/securekeys", name]
  match (d.Get "spec").assertString with
  | .panic msg => ⟨.panic msg, d, []⟩
  | .ret spec =>
  match NewRequest env "PUT" addr (some spec) with
  | .error err => ⟨.ret (some err), d, []⟩
  | .ok req =>
  match env.httpCall config.httpClient req with
  | .error err => ⟨.ret (some err), d, [req]⟩
  | .ok _ => ⟨.ret none, d.SetId name, [req]⟩

/-- The function `resourceSecureKeyRead` (lines 91-93). -/
def resourceSecureKeyRead (d : ResourceData) (_m : Handle) : Result (Option Error) :=
  ⟨.ret none, d, []⟩

/-- The function `resourceSecureKeyDelete` (lines 95-106). -/
def resourceSecureKeyDelete (env : Env) (d : ResourceData) (m : Handle) :
    Result (Option Error) :=
  match m.assertConfig with
  | .panic msg => ⟨.panic msg, d, []⟩
  | .ret config =>
  match (d.Get "name").assertString with
  | .panic msg => ⟨.panic msg, d, []⟩
  | .ret name =>
  match (d.Get "namespace").assertString with
  | .panic msg => ⟨.panic msg, d, []⟩
  | .ret ns =>
  let addr := env.urlJoin config.host ["/v3/namespaces", ns, "/securekeys", name]
  match NewRequest env "DELETE" addr none with
  | .error err => ⟨.ret (some err), d, []⟩
  | .ok req =>
  match env.httpCall config.httpClient req with
  | .error err => ⟨.ret (some err), d, [req]⟩
  | .ok _ => ⟨.ret none, d, [req]⟩

/-- The loop of lines 131-136: the first record whose name is the target ends
the scan with `true`; running off the end gives `false`. -/
def scanSecureKeys (name : String) : List secureKey → Bool
  | [] => false
  | key :: rest => if key.Name = name then true else scanSecureKeys name rest

/-- The function `resourceSecureKeyExists` (lines 108-137). -/
def resourceSecureKeyExists (env : Env) (d : ResourceData) (m : Handle) :
    Result (Bool × Option Error) :=
  match m.assertConfig with
  | .panic msg => ⟨.panic msg, d, []⟩
  | .ret config =>
  match (d.Get "name").assertString with
  | .panic msg => ⟨.panic msg, d, []⟩
  | .ret name =>
  match (d.Get "namespace").assertString with
  | .panic msg => ⟨.panic msg, d, []⟩
  | .ret ns =>
  let addr := env.urlJoin config.host ["/v3/namespaces", ns, "/securekeys"]
  match NewRequest env "GET" addr none with
  | .error err => ⟨.ret (false, some err), d, []⟩
  | .ok req =>
  match env.httpCall config.httpClient req with
  | .error err => ⟨.ret (false, some err), d, [req]⟩
  | .ok b =>
  match env.jsonUnmarshal b with
  | .error err => ⟨.ret (false, some err), d, [req]⟩
  | .ok secureKeys => ⟨.ret (scanSecureKeys name secureKeys, none), d, [req]⟩

/-- The fields of `schema.Resource` that matter here; a field the literal does
not set is `nil`. -/
structure Resource where
  Create : Option (ResourceData → Handle → Result (Option Error)) := none
  Read : Option (ResourceData → Handle → Result (Option Error)) := none
  Update : Option (ResourceData → Handle → Result (Option Error)) := none
  Delete : Option (ResourceData → Handle → Result (Option Error)) := none
  Exists : Option (ResourceData → Handle → Result (Bool × Option Error)) := none
  Schema : List (String × Schema) := []

/-- The function `resourceSecureKey` (lines 26-69). -/
def resourceSecureKey (env : Env) : Resource :=
  { Create := some (resourceSecureKeyCreate env)
    Read := some resourceSecureKeyRead
    Delete := some (resourceSecureKeyDelete env)
    Exists := some (resourceSecureKeyExists env)
    Schema :=
      [ ("data",
          { Type_ := .TypeString
            Description := "The secret to be secured."
            Required := true
            ForceNew := true }),
        ("description",
          { Type_ := .TypeString
            Description := "The description of the secure key."
            Optional := true
            ForceNew := true }),
        ("namespace",
          { Type_ := .TypeString
            Optional := true
            ForceNew := true
            Description :=
              "The name of the namespace in which this resource belongs. If not provided, the default namespace is used."
            DefaultFunc := some fun _ => (.str env.defaultNamespace, none) }),
        ("name",
          { Type_ := .TypeString
            Description :=
              "The name of the secure key. This will be used as the unique identifier in the CDAP API."
            Required := true
            ForceNew := true }),
        ("properties",
          { Type_ := .TypeMap
            Description := "Additional key/value pairs that can be attached to the secure key."
            Optional := true
            ForceNew := true }) ] }

/-! Section: the address each operation computes. -/

/-- The value of the local `addr` of `resourceSecureKeyCreate` (lines 73-74),
or the panic of one of the two assertions that lead to it. -/
def resourceSecureKeyCreate_addr (env : Env) (config : Config) (d : ResourceData) :
    Outcome String :=
  match (d.Get "name").assertString with
  | .panic msg => .panic msg
  | .ret name =>
  match (d.Get "namespace").assertString with
  | .panic msg => .panic msg
  | .ret ns => .ret (env.urlJoin config.host ["/v3/namespaces", ns, "/securekeys", name])

/-- The value of the local `addr` of `resourceSecureKeyDelete` (lines 97-98),
or the panic of one of the two assertions that lead to it. -/
def resourceSecureKeyDelete_addr (env : Env) (config : Config) (d : ResourceData) :
    Outcome String :=
  match (d.Get "name").assertString with
  | .panic msg => .panic msg
  | .ret name =>
  match (d.Get "namespace").assertString with
  | .panic msg => .panic msg
  | .ret ns => .ret (env.urlJoin config.host ["/v3/namespaces", ns, "/securekeys", name])

/-- The value of the local `addr` of `resourceSecureKeyExists` (lines 110-111),
or the panic of one of the two assertions that lead to it. -/
def resourceSecureKeyExists_addr (env : Env) (config : Config) (d : ResourceData) :
    Outcome String :=
  match (d.Get "name").assertString with
  | .panic msg => .panic msg
  | .ret _ =>
  match (d.Get "namespace").assertString with
  | .panic msg => .panic msg
  | .ret ns => .ret (env.urlJoin config.host ["/v3/namespaces", ns, "/securekeys"])

/-- The resource data the SDK plans for this resource from a configuration:
`ResourceData.ofConfig` over the declared schema. -/
def planned (env : Env) (config : List (String × Value)) (id : String) : ResourceData :=
  ResourceData.ofConfig (resourceSecureKey env).Schema config id

/-! Section: a concrete environment and concrete states for the examples. -/

/-- A list of characters without the slashes at its end. -/
def dropTrailingSlashes (cs : List Char) : List Char :=
  (cs.reverse.dropWhile fun c => c = '/').reverse

/-- Modelled from the spec: the package helper `urlJoin`, which is not in
`resource_secure_key.go`. It joins a base and path segments with exactly one
separator at each joint, whatever separators the parts begin or end with, and
encodes nothing. -/
def urlJoin (base : String) (paths : List String) : String :=
  String.mk (paths.foldl
    (fun acc p => dropTrailingSlashes acc ++ '/' :: p.data.dropWhile fun c => c = '/')
    base.data)

/-- Modelled from the spec: the package helper `httpCall`, which is not in
`resource_secure_key.go`. It performs the request and returns the raw body of
a 2xx response; a transport failure or any other status is an error that
carries the status and the body. -/
def httpCall (client : HttpClient) (req : Request) : Except Error Bytes :=
  match client req with
  | .error err => .error err
  | .ok resp =>
    if 200 ≤ resp.StatusCode ∧ resp.StatusCode < 300 then .ok resp.Body
    else .error (.RemoteCallError (some resp.StatusCode) resp.Body)

/-- One failure of `url.Parse` that the concrete environment has: an ASCII
control character in the address. The other failures of `url.Parse` (a
malformed percent escape, a port that is not a number) are not in this
instance; the addresses of the examples have no percent sign and the port
11015. -/
def urlParseError (url : String) : Option Error :=
  if url.data.any fun c => c.toNat < 32 ∨ c.toNat = 127 then
    some (.RequestConstructionError "net/url: invalid control character in URL")
  else none

/-- The concrete environment: the helpers as the spec describes them, the
library as modelled above, and `default` for the default namespace. -/
def specEnv : Env :=
  { defaultNamespace := "default"
    urlJoin := urlJoin
    httpCall := httpCall
    urlParseError := urlParseError
    jsonUnmarshal := jsonUnmarshal }

/-- The UTF-8 bytes of a text. -/
def utf8 (s : String) : Bytes := s.data.flatMap String.utf8EncodeChar

/-- A backend that answers every request with the given status and body. -/
def constClient (status : Nat) (body : String) : HttpClient :=
  fun _ => .ok { StatusCode := status, Body := utf8 body }

/-- A backend whose namespace `default` holds the keys `a` and `b`: it answers
the listing request with them and everything else with 404. -/
def listingClient : HttpClient := fun req =>
  if req.Method = "GET" ∧ req.URL = "http://cdap:11015/v3/namespaces/default/securekeys" then
    .ok { StatusCode := 200, Body := utf8 "[\x7b\"name\":\"a\"\x7d,\x7b\"name\":\"b\"\x7d]" }
  else .ok { StatusCode := 404, Body := utf8 "not found" }

/-- The provider configuration over a backend. -/
def configOf (client : HttpClient) : Config :=
  { host := "http://cdap:11015", httpClient := client }

/-- A configuration of the key `name`: a secret, a description and one
property, and no namespace. -/
def keyConfig (name : String) : List (String × Value) :=
  [("name", .str name), ("data", .str "s3cret"), ("description", .str "a key"),
    ("properties", .map [("owner", "ops")])]

/-- A state of the declared schema: the resource data planned from
`keyConfig name`, no identifier yet. -/
def keyState (name : String) : ResourceData :=
  ResourceData.ofConfig (resourceSecureKey specEnv).Schema (keyConfig name) ""

/-- A state of the declared schema whose configuration sets the namespace to
`ns`. -/
def keyStateIn (ns name : String) : ResourceData :=
  ResourceData.ofConfig (resourceSecureKey specEnv).Schema
    (("namespace", .str ns) :: keyConfig name) ""

/-- A state of the declared schema that holds a name and an identifier and no
value for the namespace. -/
def bareState (name : String) : ResourceData :=
  { schema := (resourceSecureKey specEnv).Schema, raw := [("name", .str name)], id := name }

/-! Section: the models on concrete inputs. -/

theorem urlJoin_example :
    urlJoin "http://cdap:11015/" ["/v3/namespaces", "default", "/securekeys", "k"]
      = "http://cdap:11015/v3/namespaces/default/securekeys/k" := by decide

theorem jsonUnmarshal_listing :
    jsonUnmarshal (utf8 "[\x7b\"name\":\"a\"\x7d,\x7b\"name\":\"b\"\x7d]")
      = .ok [⟨"a"⟩, ⟨"b"⟩] := rfl

theorem jsonUnmarshal_not_json :
    jsonUnmarshal (utf8 "not-json") = .error (.DecodeError "json: syntax error") := rfl

/-- The decoder takes `null` for the nil slice, and in an array takes `null`
and any object for a record, with a key matched up to case. -/
theorem jsonUnmarshal_lenient :
    jsonUnmarshal (utf8 "null") = .ok [] ∧
    jsonUnmarshal (utf8 "[null, \x7b\"NAME\": \"x\", \"n\": [1.5e3, true]\x7d]")
      = .ok [⟨""⟩, ⟨"x"⟩] := ⟨rfl, rfl⟩

/-- A value of the wrong JSON type is an error of the decoder. -/
theorem jsonUnmarshal_type_errors :
    (jsonUnmarshal (utf8 "\x7b\"name\":\"a\"\x7d")).toBool = false ∧
    (jsonUnmarshal (utf8 "[\x7b\"name\":5\x7d]")).toBool = false ∧
    (jsonUnmarshal (utf8 "[\"a\"]")).toBool = false := ⟨rfl, rfl, rfl⟩

theorem keyState_conforms (name : String) :
    (keyState name).schema = (resourceSecureKey specEnv).Schema ∧
    (keyState name).wellTyped = true := ⟨rfl, rfl⟩

/-! Section: lemmas on the SDK model. -/

/-- The declared schema has no attribute `spec`. -/
theorem Get_spec_of_declared (env : Env) (d : ResourceData)
    (hs : d.schema = (resourceSecureKey env).Schema) : d.Get "spec" = .nil := by
  have h : d.schema.lookup "spec" = none := by rw [hs]; rfl
  simp [ResourceData.Get, h]

/-- The defaults of the declared schema: the default namespace, when the
configuration has no namespace, and nothing else. -/
theorem schemaDefaults_declared (env : Env) (config : List (String × Value)) :
    schemaDefaults config (resourceSecureKey env).Schema
      = match config.lookup "namespace" with
        | some _ => []
        | none => [("namespace", .str env.defaultNamespace)] := by
  simp only [resourceSecureKey, schemaDefaults]

/-- Planned from a configuration without a namespace, the namespace reads as
the default namespace. -/
theorem Get_namespace_planned_absent (env : Env) (config : List (String × Value))
    (id : String) (h : config.lookup "namespace" = none) :
    (planned env config id).Get "namespace" = .str env.defaultNamespace := by
  have hs : (resourceSecureKey env).Schema.lookup "namespace" ≠ none := by
    simp [resourceSecureKey, List.lookup]
  cases hlk : (resourceSecureKey env).Schema.lookup "namespace" with
  | none => exact absurd hlk hs
  | some s =>
    simp [planned, ResourceData.ofConfig, ResourceData.Get, hlk, schemaDefaults_declared, h,
      List.lookup_append, List.lookup]

/-- Planned from a configuration that sets the namespace, the namespace reads
as the configured value. -/
theorem Get_namespace_planned_set (env : Env) (config : List (String × Value))
    (id : String) (v : Value) :
    (planned env (("namespace", v) :: config) id).Get "namespace" = v := by
  have hs : (resourceSecureKey env).Schema.lookup "namespace" ≠ none := by
    simp [resourceSecureKey, List.lookup]
  cases hlk : (resourceSecureKey env).Schema.lookup "namespace" with
  | none => exact absurd hlk hs
  | some s =>
    simp [planned, ResourceData.ofConfig, ResourceData.Get, hlk, List.lookup_append,
      List.lookup]

/-- The name reads the same whether or not the configuration sets the
namespace. -/
theorem Get_name_planned (env : Env) (config : List (String × Value)) (id : String)
    (v : Value) :
    (planned env config id).Get "name"
      = (planned env (("namespace", v) :: config) id).Get "name" := by
  have h1 : ("name" == "namespace") = false := by decide
  cases hlk : (resourceSecureKey env).Schema.lookup "name" with
  | none => simp [planned, ResourceData.ofConfig, ResourceData.Get, hlk]
  | some s =>
    simp only [planned, ResourceData.ofConfig, ResourceData.Get, hlk, List.lookup_append,
      schemaDefaults_declared, List.lookup, h1]
    cases hc : config.lookup "name" with
    | some w => simp [hc]
    | none => cases hn : config.lookup "namespace" <;> simp [List.lookup, h1, hc]

/-- The members of an object decode without a type error exactly when every
member that selects `Name` holds a string or `null`. -/
theorem decodeMembers_toBool (members : List (String × Json.Value)) (key : secureKey) :
    (Json.decodeMembers key members).toBool
      = members.all fun kv => !Json.matchesName kv.1 || Json.nameValueOk kv.2 := by
  induction members generalizing key with
  | nil => rfl
  | cons kv rest ih =>
    obtain ⟨k, v⟩ := kv
    by_cases hk : Json.matchesName k = true
    · cases v <;> first
        | (simp [Json.decodeMembers, hk, ih, Json.nameValueOk]; done)
        | simp [Json.decodeMembers, hk, Json.nameValueOk, Except.toBool]
    · simp [Json.decodeMembers, hk, ih]

/-- A value decodes into a `secureKey` without a type error exactly when
`decodesAsRecord` says so. -/
theorem decodeSecureKey_toBool (v : Json.Value) :
    (Json.decodeSecureKey v).toBool = Json.decodesAsRecord v := by
  cases v <;> first
    | (simp [Json.decodeSecureKey, Json.decodesAsRecord, decodeMembers_toBool]; done)
    | simp [Json.decodeSecureKey, Json.decodesAsRecord, Except.toBool]

/-- The elements of an array decode without a type error exactly when each
does. -/
theorem decodeElems_toBool (elems : List Json.Value) :
    (Json.decodeElems elems).toBool = elems.all Json.decodesAsRecord := by
  induction elems with
  | nil => rfl
  | cons v rest ih =>
    have hv := decodeSecureKey_toBool v
    cases hd : Json.decodeSecureKey v with
    | error err =>
      rw [hd] at hv
      simp [Json.decodeElems, hd, Except.toBool, ← hv]
    | ok key =>
      rw [hd] at hv
      cases hr : Json.decodeElems rest with
      | error err =>
        rw [hr] at ih
        simp [Json.decodeElems, hd, hr, Except.toBool, ← ih]
      | ok keys =>
        rw [hr] at ih
        simp [Json.decodeElems, hd, hr, Except.toBool, ← ih, ← hv]

/-- The decoder accepts exactly the bodies of `decodableListing`. -/
theorem jsonUnmarshal_toBool (b : Bytes) :
    (jsonUnmarshal b).toBool = decodableListing b := by
  unfold jsonUnmarshal decodableListing
  cases Json.parseText b with
  | none => rfl
  | some v =>
    cases v <;> first
      | (simp [Json.decodeSecureKeys, Json.decodesAsListing, decodeElems_toBool]; done)
      | simp [Json.decodeSecureKeys, Json.decodesAsListing, Except.toBool]

/-- The scan answers whether some record has the target name. -/
theorem scanSecureKeys_iff (name : String) (keys : List secureKey) :
    scanSecureKeys name keys = true ↔ ∃ key ∈ keys, key.Name = name := by
  induction keys with
  | nil => simp [scanSecureKeys]
  | cons key rest ih =>
    by_cases h : key.Name = name
    · simp [scanSecureKeys, h]
    · simp [scanSecureKeys, h, ih]

/-- A request that `http.NewRequest` built records the arguments of the
call. -/
theorem NewRequest_ok (env : Env) (method url : String) (body : Option String)
    (req : Request) (h : NewRequest env method url body = .ok req) :
    req = { Method := method, URL := url, Body := body } := by
  unfold NewRequest at h
  split at h
  · cases h
  · cases h; rfl

/-! Section: Read. -/

/-- C10: for every resource state and every configuration handle,
`resourceSecureKeyRead` returns no error, hands no request to `httpCall`, and
leaves the resource data (identifier, attributes, schema) as it was. -/
theorem resourceSecureKeyRead_noop (d : ResourceData) (m : Handle) :
    (resourceSecureKeyRead d m).out = .ret none ∧
    (resourceSecureKeyRead d m).calls = [] ∧
    (resourceSecureKeyRead d m).d = d :=
  ⟨rfl, rfl, rfl⟩

/-! Section: the resource definition. -/

/-- C9: the resource definition has no Update operation, and each of the
attributes `data`, `description` and `properties` is declared and marked
`ForceNew` (as are `namespace` and `name`). -/
theorem resourceSecureKey_no_update_force_new (env : Env) :
    (resourceSecureKey env).Update.isNone = true ∧
    ((resourceSecureKey env).Schema.lookup "data").map (·.ForceNew) = some true ∧
    ((resourceSecureKey env).Schema.lookup "description").map (·.ForceNew) = some true ∧
    ((resourceSecureKey env).Schema.lookup "properties").map (·.ForceNew) = some true ∧
    ((resourceSecureKey env).Schema.lookup "namespace").map (·.ForceNew) = some true ∧
    ((resourceSecureKey env).Schema.lookup "name").map (·.ForceNew) = some true ∧
    (resourceSecureKey env).Schema.map (·.1)
      = ["data", "description", "namespace", "name", "properties"] :=
  ⟨rfl, rfl, rfl, rfl, rfl, rfl, rfl⟩

/-! Section: Exists. -/

/-- C1: when the listing request is built and answered and the body decodes
to a sequence of records, `resourceSecureKeyExists` returns `(true, nil)` if
and only if some decoded record has the target name, and `(false, nil)`
otherwise; it issues the one listing request and leaves the resource data
alone. -/
theorem resourceSecureKeyExists_scan (env : Env) (d : ResourceData) (config : Config)
    (name ns : String) (req : Request) (b : Bytes) (secureKeys : List secureKey)
    (hname : d.Get "name" = .str name) (hns : d.Get "namespace" = .str ns)
    (hreq : NewRequest env "GET"
      (env.urlJoin config.host ["/v3/namespaces", ns, "/securekeys"]) none = .ok req)
    (hcall : env.httpCall config.httpClient req = .ok b)
    (hdec : env.jsonUnmarshal b = .ok secureKeys) :
    ((resourceSecureKeyExists env d (.config config)).out = .ret (true, none)
      ↔ ∃ key ∈ secureKeys, key.Name = name) ∧
    ((resourceSecureKeyExists env d (.config config)).out = .ret (false, none)
      ↔ ¬ ∃ key ∈ secureKeys, key.Name = name) ∧
    (resourceSecureKeyExists env d (.config config)).calls = [req] ∧
    (resourceSecureKeyExists env d (.config config)).d = d := by
  have hres : resourceSecureKeyExists env d (.config config)
      = ⟨.ret (scanSecureKeys name secureKeys, none), d, [req]⟩ := by
    simp [resourceSecureKeyExists, Handle.assertConfig, Value.assertString, hname, hns, hreq,
      hcall, hdec]
  rw [hres]
  refine ⟨?_, ?_, rfl, rfl⟩
  · rw [← scanSecureKeys_iff]; simp
  · rw [← scanSecureKeys_iff]; simp

/-- The witness of C1: against a listing of the keys `a` and `b`, Exists is
true for `b`, false for `c` and false for the empty name. -/
theorem resourceSecureKeyExists_scan_witness :
    (resourceSecureKeyExists specEnv (keyState "b") (.config (configOf listingClient))).out
      = .ret (true, none) ∧
    (resourceSecureKeyExists specEnv (keyState "c") (.config (configOf listingClient))).out
      = .ret (false, none) ∧
    (resourceSecureKeyExists specEnv (keyState "") (.config (configOf listingClient))).out
      = .ret (false, none) :=
  ⟨(resourceSecureKeyExists_scan specEnv (keyState "b") (configOf listingClient) "b" "default"
      ⟨"GET", "http://cdap:11015/v3/namespaces/default/securekeys", none⟩
      (utf8 "[\x7b\"name\":\"a\"\x7d,\x7b\"name\":\"b\"\x7d]") [⟨"a"⟩, ⟨"b"⟩]
      rfl rfl rfl rfl rfl).1.2 ⟨⟨"b"⟩, by simp, rfl⟩,
   (resourceSecureKeyExists_scan specEnv (keyState "c") (configOf listingClient) "c" "default"
      ⟨"GET", "http://cdap:11015/v3/namespaces/default/securekeys", none⟩
      (utf8 "[\x7b\"name\":\"a\"\x7d,\x7b\"name\":\"b\"\x7d]") [⟨"a"⟩, ⟨"b"⟩]
      rfl rfl rfl rfl rfl).2.1.2 (by decide),
   (resourceSecureKeyExists_scan specEnv (keyState "") (configOf listingClient) "" "default"
      ⟨"GET", "http://cdap:11015/v3/namespaces/default/securekeys", none⟩
      (utf8 "[\x7b\"name\":\"a\"\x7d,\x7b\"name\":\"b\"\x7d]") [⟨"a"⟩, ⟨"b"⟩]
      rfl rfl rfl rfl rfl).2.1.2 (by decide)⟩

/-- C5, as amended: when the listing request is built and answered, a body
that the decoder rejects makes `resourceSecureKeyExists` return `false`
together with the error of the decoder, never `(false, nil)`. With the
decoder of `encoding/json` the rejected bodies are exactly those that are not
a JSON text, or whose value is neither an array nor `null`, or has an element
that is neither an object nor `null`, or has a member selecting `Name` that
is neither a string nor `null`; every other body is decoded and gives no
error. -/
theorem resourceSecureKeyExists_undecodable (env : Env) (d : ResourceData)
    (config : Config) (name ns : String) (req : Request) (b : Bytes)
    (hname : d.Get "name" = .str name) (hns : d.Get "namespace" = .str ns)
    (hreq : NewRequest env "GET"
      (env.urlJoin config.host ["/v3/namespaces", ns, "/securekeys"]) none = .ok req)
    (hcall : env.httpCall config.httpClient req = .ok b) :
    (∀ err, env.jsonUnmarshal b = .error err →
      (resourceSecureKeyExists env d (.config config)).out = .ret (false, some err) ∧
      (resourceSecureKeyExists env d (.config config)).out ≠ .ret (false, none)) ∧
    (env.jsonUnmarshal = jsonUnmarshal → decodableListing b = false →
      ∃ err, (resourceSecureKeyExists env d (.config config)).out = .ret (false, some err)) ∧
    (env.jsonUnmarshal = jsonUnmarshal → decodableListing b = true →
      ∃ found, (resourceSecureKeyExists env d (.config config)).out = .ret (found, none)) := by
  refine ⟨?_, ?_, ?_⟩
  · intro err hdec
    have hres : resourceSecureKeyExists env d (.config config)
        = ⟨.ret (false, some err), d, [req]⟩ := by
      simp [resourceSecureKeyExists, Handle.assertConfig, Value.assertString, hname, hns,
        hreq, hcall, hdec]
    rw [hres]
    exact ⟨rfl, by simp⟩
  · intro henv hbad
    have hb := jsonUnmarshal_toBool b
    rw [hbad] at hb
    cases hdec : jsonUnmarshal b with
    | ok keys => rw [hdec] at hb; cases hb
    | error err =>
      refine ⟨err, ?_⟩
      simp [resourceSecureKeyExists, Handle.assertConfig, Value.assertString, hname, hns,
        hreq, hcall, henv, hdec]
  · intro henv hgood
    have hb := jsonUnmarshal_toBool b
    rw [hgood] at hb
    cases hdec : jsonUnmarshal b with
    | error err => rw [hdec] at hb; cases hb
    | ok keys =>
      refine ⟨scanSecureKeys name keys, ?_⟩
      simp [resourceSecureKeyExists, Handle.assertConfig, Value.assertString, hname, hns,
        hreq, hcall, henv, hdec]

/-- The witness of C5: a listing answered with the body `not-json`, which is
not a JSON text, makes Exists return the syntax error of the decoder. -/
theorem resourceSecureKeyExists_undecodable_witness :
    decodableListing (utf8 "not-json") = false ∧
    (resourceSecureKeyExists specEnv (keyState "a")
        (.config (configOf (constClient 200 "not-json")))).out
      = .ret (false, some (.DecodeError "json: syntax error")) ∧
    (resourceSecureKeyExists specEnv (keyState "a")
        (.config (configOf (constClient 200 "not-json")))).out ≠ .ret (false, none) :=
  ⟨rfl,
   (resourceSecureKeyExists_undecodable specEnv (keyState "a")
      (configOf (constClient 200 "not-json")) "a" "default"
      ⟨"GET", "http://cdap:11015/v3/namespaces/default/securekeys", none⟩
      (utf8 "not-json") rfl rfl rfl rfl).1 (.DecodeError "json: syntax error") rfl⟩

/-- The counterexample to C5 as stated: the bodies `null`, `[null]` and
`[{"name":null}]` are not sequences of `{name: string}` records, and for each
of them Exists returns `(false, nil)`. -/
theorem exists_false_negative_on_null :
    wellFormedListing (utf8 "null") = false ∧
    (resourceSecureKeyExists specEnv (keyState "a")
        (.config (configOf (constClient 200 "null")))).out = .ret (false, none) ∧
    wellFormedListing (utf8 "[null]") = false ∧
    (resourceSecureKeyExists specEnv (keyState "a")
        (.config (configOf (constClient 200 "[null]")))).out = .ret (false, none) ∧
    wellFormedListing (utf8 "[\x7b\"name\":null\x7d]") = false ∧
    (resourceSecureKeyExists specEnv (keyState "a")
        (.config (configOf (constClient 200 "[\x7b\"name\":null\x7d]")))).out
      = .ret (false, none) ∧
    wellFormedListing (utf8 "[\x7b\"name\":\"a\"\x7d,\x7b\"name\":\"b\"\x7d]") = true :=
  ⟨rfl, rfl, rfl, rfl, rfl, rfl, rfl⟩

/-! Section: Delete. -/

/-- C8: `resourceSecureKeyDelete` returns the error of the HTTP call, as it
is, when the call fails, and the error of the request construction when that
fails; and on every input it returns `nil` exactly when both assertions hold,
the request is built and the HTTP call succeeds. -/
theorem resourceSecureKeyDelete_propagates (env : Env) (d : ResourceData) (m : Handle) :
    (∀ config name ns req err, m = .config config → d.Get "name" = .str name →
      d.Get "namespace" = .str ns →
      NewRequest env "DELETE"
        (env.urlJoin config.host ["/v3/namespaces", ns, "/securekeys", name]) none = .ok req →
      env.httpCall config.httpClient req = .error err →
      (resourceSecureKeyDelete env d m).out = .ret (some err) ∧
      (resourceSecureKeyDelete env d m).calls = [req]) ∧
    (∀ config name ns err, m = .config config → d.Get "name" = .str name →
      d.Get "namespace" = .str ns →
      NewRequest env "DELETE"
        (env.urlJoin config.host ["/v3/namespaces", ns, "/securekeys", name]) none
        = .error err →
      (resourceSecureKeyDelete env d m).out = .ret (some err) ∧
      (resourceSecureKeyDelete env d m).calls = []) ∧
    ((resourceSecureKeyDelete env d m).out = .ret none ↔
      ∃ config name ns req b, m = .config config ∧ d.Get "name" = .str name ∧
        d.Get "namespace" = .str ns ∧
        NewRequest env "DELETE"
          (env.urlJoin config.host ["/v3/namespaces", ns, "/securekeys", name]) none
          = .ok req ∧
        env.httpCall config.httpClient req = .ok b) := by
  refine ⟨?_, ?_, ?_⟩
  · intro config name ns req err hm hname hns hreq hcall
    subst hm
    simp [resourceSecureKeyDelete, Handle.assertConfig, Value.assertString, hname, hns, hreq,
      hcall]
  · intro config name ns err hm hname hns hreq
    subst hm
    simp [resourceSecureKeyDelete, Handle.assertConfig, Value.assertString, hname, hns, hreq]
  · constructor
    · intro h
      cases m with
      | other tag => simp [resourceSecureKeyDelete, Handle.assertConfig] at h
      | config config =>
        cases hname : d.Get "name" with
        | nil => simp [resourceSecureKeyDelete, Handle.assertConfig, Value.assertString, hname] at h
        | map mp =>
          simp [resourceSecureKeyDelete, Handle.assertConfig, Value.assertString, hname] at h
        | str name =>
          cases hns : d.Get "namespace" with
          | nil =>
            simp [resourceSecureKeyDelete, Handle.assertConfig, Value.assertString, hname, hns]
              at h
          | map mp =>
            simp [resourceSecureKeyDelete, Handle.assertConfig, Value.assertString, hname, hns]
              at h
          | str ns =>
            cases hreq : NewRequest env "DELETE"
                (env.urlJoin config.host ["/v3/namespaces", ns, "/securekeys", name]) none with
            | error err =>
              simp [resourceSecureKeyDelete, Handle.assertConfig, Value.assertString, hname,
                hns, hreq] at h
            | ok req =>
              cases hcall : env.httpCall config.httpClient req with
              | error err =>
                simp [resourceSecureKeyDelete, Handle.assertConfig, Value.assertString, hname,
                  hns, hreq, hcall] at h
              | ok b => exact ⟨config, name, ns, req, b, rfl, rfl, rfl, hreq, hcall⟩
    · rintro ⟨config, name, ns, req, b, hm, hname, hns, hreq, hcall⟩
      subst hm
      simp [resourceSecureKeyDelete, Handle.assertConfig, Value.assertString, hname, hns, hreq,
        hcall]

/-- The witness of C8: a Delete that the backend answers with 404 returns the
error of that call, with its status and body. -/
theorem resourceSecureKeyDelete_propagates_witness :
    (resourceSecureKeyDelete specEnv (keyState "k")
        (.config (configOf (constClient 404 "not found")))).out
      = .ret (some (.RemoteCallError (some 404) (utf8 "not found"))) ∧
    (resourceSecureKeyDelete specEnv (keyState "k")
        (.config (configOf (constClient 404 "not found")))).calls
      = [⟨"DELETE", "http://cdap:11015/v3/namespaces/default/securekeys/k", none⟩] :=
  (resourceSecureKeyDelete_propagates specEnv (keyState "k")
      (.config (configOf (constClient 404 "not found")))).1
    (configOf (constClient 404 "not found")) "k" "default"
    ⟨"DELETE", "http://cdap:11015/v3/namespaces/default/securekeys/k", none⟩
    (.RemoteCallError (some 404) (utf8 "not found")) rfl rfl rfl rfl rfl

/-! Section: addresses. -/

/-- C7: for every host, namespace and name, the address that
`resourceSecureKeyCreate` computes is the address that
`resourceSecureKeyDelete` computes: `urlJoin` of the host and the segments
`/v3/namespaces`, namespace, `/securekeys`, name; and every request either
operation issues goes to that address. -/
theorem create_delete_same_address (env : Env) (config : Config) (d : ResourceData) :
    resourceSecureKeyCreate_addr env config d = resourceSecureKeyDelete_addr env config d ∧
    (∀ name ns, d.Get "name" = .str name → d.Get "namespace" = .str ns →
      resourceSecureKeyCreate_addr env config d
        = .ret (env.urlJoin config.host ["/v3/namespaces", ns, "/securekeys", name])) ∧
    (∀ req ∈ (resourceSecureKeyCreate env d (.config config)).calls,
      resourceSecureKeyCreate_addr env config d = .ret req.URL ∧ req.Method = "PUT") ∧
    (∀ req ∈ (resourceSecureKeyDelete env d (.config config)).calls,
      resourceSecureKeyDelete_addr env config d = .ret req.URL ∧ req.Method = "DELETE") := by
  refine ⟨rfl, ?_, ?_, ?_⟩
  · intro name ns hname hns
    simp [resourceSecureKeyCreate_addr, Value.assertString, hname, hns]
  · intro req hmem
    unfold resourceSecureKeyCreate at hmem
    unfold resourceSecureKeyCreate_addr
    simp only [Handle.assertConfig] at hmem
    cases hname : (d.Get "name").assertString with
    | panic msg => simp [hname] at hmem
    | ret name =>
      cases hns : (d.Get "namespace").assertString with
      | panic msg => simp [hname, hns] at hmem
      | ret ns =>
        cases hspec : (d.Get "spec").assertString with
        | panic msg => simp [hname, hns, hspec] at hmem
        | ret spec =>
          cases hreq : NewRequest env "PUT"
              (env.urlJoin config.host ["/v3/namespaces", ns, "/securekeys", name])
              (some spec) with
          | error err => simp [hname, hns, hspec, hreq] at hmem
          | ok req1 =>
            have hr := NewRequest_ok _ _ _ _ _ hreq
            cases hcall : env.httpCall config.httpClient req1 with
            | error err =>
              simp [hname, hns, hspec, hreq, hcall] at hmem
              subst hmem; subst hr; simp
            | ok b =>
              simp [hname, hns, hspec, hreq, hcall] at hmem
              subst hmem; subst hr; simp
  · intro req hmem
    unfold resourceSecureKeyDelete at hmem
    unfold resourceSecureKeyDelete_addr
    simp only [Handle.assertConfig] at hmem
    cases hname : (d.Get "name").assertString with
    | panic msg => simp [hname] at hmem
    | ret name =>
      cases hns : (d.Get "namespace").assertString with
      | panic msg => simp [hname, hns] at hmem
      | ret ns =>
        cases hreq : NewRequest env "DELETE"
            (env.urlJoin config.host ["/v3/namespaces", ns, "/securekeys", name]) none with
        | error err => simp [hname, hns, hreq] at hmem
        | ok req1 =>
          have hr := NewRequest_ok _ _ _ _ _ hreq
          cases hcall : env.httpCall config.httpClient req1 with
          | error err =>
            simp [hname, hns, hreq, hcall] at hmem
            subst hmem; subst hr; simp
          | ok b =>
            simp [hname, hns, hreq, hcall] at hmem
            subst hmem; subst hr; simp

/-- The witness of C7: for the key `k` in namespace `default`, Create and
Delete both compute the address of that key. -/
theorem create_delete_same_address_witness :
    resourceSecureKeyCreate_addr specEnv (configOf (constClient 200 "")) (keyState "k")
      = .ret "http://cdap:11015/v3/namespaces/default/securekeys/k" ∧
    resourceSecureKeyDelete_addr specEnv (configOf (constClient 200 "")) (keyState "k")
      = .ret "http://cdap:11015/v3/namespaces/default/securekeys/k" :=
  ⟨(create_delete_same_address specEnv (configOf (constClient 200 "")) (keyState "k")).2.1
      "k" "default" rfl rfl,
   (create_delete_same_address specEnv (configOf (constClient 200 "")) (keyState "k")).1 ▸
    (create_delete_same_address specEnv (configOf (constClient 200 "")) (keyState "k")).2.1
      "k" "default" rfl rfl⟩

/-- Delete reads the resource data through `name` and `namespace` only. -/
theorem resourceSecureKeyDelete_congr (env : Env) (d d1 : ResourceData) (m : Handle)
    (hname : d.Get "name" = d1.Get "name") (hns : d.Get "namespace" = d1.Get "namespace") :
    (resourceSecureKeyDelete env d m).out = (resourceSecureKeyDelete env d1 m).out ∧
    (resourceSecureKeyDelete env d m).calls = (resourceSecureKeyDelete env d1 m).calls := by
  unfold resourceSecureKeyDelete
  rw [hname, hns]
  constructor <;> repeat' (first | split | dsimp only)

/-- Exists reads the resource data through `name` and `namespace` only. -/
theorem resourceSecureKeyExists_congr (env : Env) (d d1 : ResourceData) (m : Handle)
    (hname : d.Get "name" = d1.Get "name") (hns : d.Get "namespace" = d1.Get "namespace") :
    (resourceSecureKeyExists env d m).out = (resourceSecureKeyExists env d1 m).out ∧
    (resourceSecureKeyExists env d m).calls = (resourceSecureKeyExists env d1 m).calls := by
  unfold resourceSecureKeyExists
  rw [hname, hns]
  constructor <;> repeat' (first | split | dsimp only)

/-- C6, as amended: for every host, name and default namespace, on the
resource data planned from a configuration that has no namespace, Create,
Delete and Exists each compute the address they compute when the
configuration sets the namespace to the default namespace, which is the
address with the default namespace in it; Delete and Exists then return the
same and issue the same requests. The operations use the namespace of the
resource data as it is given, the empty string too. -/
theorem default_namespace_when_undeclared (env : Env) (config : Config)
    (cfg : List (String × Value)) (id : String)
    (hraw : cfg.lookup "namespace" = none) :
    resourceSecureKeyCreate_addr env config (planned env cfg id)
      = resourceSecureKeyCreate_addr env config
          (planned env (("namespace", .str env.defaultNamespace) :: cfg) id) ∧
    resourceSecureKeyDelete_addr env config (planned env cfg id)
      = resourceSecureKeyDelete_addr env config
          (planned env (("namespace", .str env.defaultNamespace) :: cfg) id) ∧
    resourceSecureKeyExists_addr env config (planned env cfg id)
      = resourceSecureKeyExists_addr env config
          (planned env (("namespace", .str env.defaultNamespace) :: cfg) id) ∧
    (∀ name, (planned env cfg id).Get "name" = .str name →
      resourceSecureKeyCreate_addr env config (planned env cfg id)
        = .ret (env.urlJoin config.host
            ["/v3/namespaces", env.defaultNamespace, "/securekeys", name]) ∧
      resourceSecureKeyDelete_addr env config (planned env cfg id)
        = .ret (env.urlJoin config.host
            ["/v3/namespaces", env.defaultNamespace, "/securekeys", name]) ∧
      resourceSecureKeyExists_addr env config (planned env cfg id)
        = .ret (env.urlJoin config.host
            ["/v3/namespaces", env.defaultNamespace, "/securekeys"])) ∧
    (∀ m, (resourceSecureKeyDelete env (planned env cfg id) m).out
        = (resourceSecureKeyDelete env
            (planned env (("namespace", .str env.defaultNamespace) :: cfg) id) m).out ∧
      (resourceSecureKeyDelete env (planned env cfg id) m).calls
        = (resourceSecureKeyDelete env
            (planned env (("namespace", .str env.defaultNamespace) :: cfg) id) m).calls) ∧
    (∀ m, (resourceSecureKeyExists env (planned env cfg id) m).out
        = (resourceSecureKeyExists env
            (planned env (("namespace", .str env.defaultNamespace) :: cfg) id) m).out ∧
      (resourceSecureKeyExists env (planned env cfg id) m).calls
        = (resourceSecureKeyExists env
            (planned env (("namespace", .str env.defaultNamespace) :: cfg) id) m).calls) ∧
    (∀ (d : ResourceData) name ns, d.Get "name" = .str name → d.Get "namespace" = .str ns →
      resourceSecureKeyCreate_addr env config d
        = .ret (env.urlJoin config.host ["/v3/namespaces", ns, "/securekeys", name]) ∧
      resourceSecureKeyDelete_addr env config d
        = .ret (env.urlJoin config.host ["/v3/namespaces", ns, "/securekeys", name]) ∧
      resourceSecureKeyExists_addr env config d
        = .ret (env.urlJoin config.host ["/v3/namespaces", ns, "/securekeys"])) := by
  have hname := Get_name_planned env cfg id (.str env.defaultNamespace)
  have hns0 := Get_namespace_planned_absent env cfg id hraw
  have hns : (planned env cfg id).Get "namespace"
      = (planned env (("namespace", .str env.defaultNamespace) :: cfg) id).Get "namespace" := by
    rw [hns0, Get_namespace_planned_set]
  refine ⟨?_, ?_, ?_, ?_, ?_, ?_, ?_⟩
  · simp only [resourceSecureKeyCreate_addr, ← hname, ← hns]
  · simp only [resourceSecureKeyDelete_addr, ← hname, ← hns]
  · simp only [resourceSecureKeyExists_addr, ← hname, ← hns]
  · intro name hn
    simp [resourceSecureKeyCreate_addr, resourceSecureKeyDelete_addr,
      resourceSecureKeyExists_addr, Value.assertString, hn, hns0]
  · intro m; exact resourceSecureKeyDelete_congr env _ _ m hname hns
  · intro m; exact resourceSecureKeyExists_congr env _ _ m hname hns
  · intro d name ns hn hs
    simp [resourceSecureKeyCreate_addr, resourceSecureKeyDelete_addr,
      resourceSecureKeyExists_addr, Value.assertString, hn, hs]

/-- The witness of C6: the key `k` planned from a configuration without a
namespace is addressed in the namespace `default`, as when the configuration
sets the namespace to `default`. -/
theorem default_namespace_when_undeclared_witness :
    (keyConfig "k").lookup "namespace" = none ∧
    resourceSecureKeyDelete_addr specEnv (configOf listingClient) (keyState "k")
      = .ret "http://cdap:11015/v3/namespaces/default/securekeys/k" ∧
    resourceSecureKeyDelete_addr specEnv (configOf listingClient) (keyState "k")
      = resourceSecureKeyDelete_addr specEnv (configOf listingClient)
          (keyStateIn "default" "k") ∧
    resourceSecureKeyExists_addr specEnv (configOf listingClient) (keyState "k")
      = resourceSecureKeyExists_addr specEnv (configOf listingClient)
          (keyStateIn "default" "k") :=
  ⟨rfl,
   ((default_namespace_when_undeclared specEnv (configOf listingClient) (keyConfig "k") ""
      rfl).2.2.2.1 "k" rfl).2.1,
   (default_namespace_when_undeclared specEnv (configOf listingClient) (keyConfig "k") ""
      rfl).2.1,
   (default_namespace_when_undeclared specEnv (configOf listingClient) (keyConfig "k") ""
      rfl).2.2.1⟩

/-- The counterexample to C6 as stated: with the namespace set to the empty
string, and with resource data that holds no namespace, each operation
addresses `/v3/namespaces/securekeys`, not the default namespace. -/
theorem empty_namespace_not_substituted :
    resourceSecureKeyCreate_addr specEnv (configOf listingClient) (keyStateIn "" "k")
      ≠ resourceSecureKeyCreate_addr specEnv (configOf listingClient)
          (keyStateIn "default" "k") ∧
    resourceSecureKeyDelete_addr specEnv (configOf listingClient) (keyStateIn "" "k")
      ≠ resourceSecureKeyDelete_addr specEnv (configOf listingClient)
          (keyStateIn "default" "k") ∧
    resourceSecureKeyExists_addr specEnv (configOf listingClient) (keyStateIn "" "k")
      ≠ resourceSecureKeyExists_addr specEnv (configOf listingClient)
          (keyStateIn "default" "k") ∧
    resourceSecureKeyDelete_addr specEnv (configOf listingClient) (keyStateIn "" "k")
      = .ret "http://cdap:11015/v3/namespaces/securekeys/k" ∧
    resourceSecureKeyDelete_addr specEnv (configOf listingClient) (keyStateIn "default" "k")
      = .ret "http://cdap:11015/v3/namespaces/default/securekeys/k" ∧
    resourceSecureKeyDelete_addr specEnv (configOf listingClient) (bareState "k")
      = .ret "http://cdap:11015/v3/namespaces/securekeys/k" := by
  decide

/-! Section: Create. -/

/-- When the body can be read, the request is built and the HTTP call
succeeds, Create sets the identifier to the name and returns `nil`, whatever
the bytes of the response. -/
theorem resourceSecureKeyCreate_success (env : Env) (d : ResourceData) (config : Config)
    (name ns spec : String) (req : Request) (b : Bytes)
    (hname : d.Get "name" = .str name) (hns : d.Get "namespace" = .str ns)
    (hspec : d.Get "spec" = .str spec)
    (hreq : NewRequest env "PUT"
      (env.urlJoin config.host ["/v3/namespaces", ns, "/securekeys", name]) (some spec)
      = .ok req)
    (hcall : env.httpCall config.httpClient req = .ok b) :
    resourceSecureKeyCreate env d (.config config) = ⟨.ret none, d.SetId name, [req]⟩ := by
  simp [resourceSecureKeyCreate, Handle.assertConfig, Value.assertString, hname, hns, hspec,
    hreq, hcall]

/-- On resource data from which the body can be read: when the request
construction fails, or the request is built and the HTTP call returns an
error, Create returns that error and leaves the resource data as it was; and
on every resource data, whenever Create ends otherwise than with `nil`, the
resource data is as it was. No state of the declared schema meets the first
two cases. -/
theorem resourceSecureKeyCreate_error_paths (env : Env) (d : ResourceData) (m : Handle) :
    (∀ config name ns spec err, m = .config config → d.Get "name" = .str name →
      d.Get "namespace" = .str ns → d.Get "spec" = .str spec →
      NewRequest env "PUT"
        (env.urlJoin config.host ["/v3/namespaces", ns, "/securekeys", name]) (some spec)
        = .error err →
      resourceSecureKeyCreate env d m = ⟨.ret (some err), d, []⟩) ∧
    (∀ config name ns spec req err, m = .config config → d.Get "name" = .str name →
      d.Get "namespace" = .str ns → d.Get "spec" = .str spec →
      NewRequest env "PUT"
        (env.urlJoin config.host ["/v3/namespaces", ns, "/securekeys", name]) (some spec)
        = .ok req →
      env.httpCall config.httpClient req = .error err →
      resourceSecureKeyCreate env d m = ⟨.ret (some err), d, [req]⟩) ∧
    ((resourceSecureKeyCreate env d m).out ≠ .ret none →
      (resourceSecureKeyCreate env d m).d = d) := by
  refine ⟨?_, ?_, ?_⟩
  · intro config name ns spec err hm hname hns hspec hreq
    subst hm
    simp [resourceSecureKeyCreate, Handle.assertConfig, Value.assertString, hname, hns, hspec,
      hreq]
  · intro config name ns spec req err hm hname hns hspec hreq hcall
    subst hm
    simp [resourceSecureKeyCreate, Handle.assertConfig, Value.assertString, hname, hns, hspec,
      hreq, hcall]
  · unfold resourceSecureKeyCreate
    repeat' (first | split | dsimp only)
    all_goals simp

/-- C4, on the code: on every state of the declared schema
`resourceSecureKeyCreate` returns no error at all, whatever the request
construction and the backend would answer: it panics before the request is
built and issues no request. The identifier is left as it was. -/
theorem resourceSecureKeyCreate_returns_no_error (env : Env) (d : ResourceData) (m : Handle)
    (hs : d.schema = (resourceSecureKey env).Schema) :
    (∀ err, (resourceSecureKeyCreate env d m).out ≠ .ret (some err)) ∧
    (resourceSecureKeyCreate env d m).calls = [] ∧
    (resourceSecureKeyCreate env d m).d.id = d.id := by
  have hspec := Get_spec_of_declared env d hs
  have h : (∃ msg, (resourceSecureKeyCreate env d m).out = .panic msg) ∧
      (resourceSecureKeyCreate env d m).calls = [] ∧
      (resourceSecureKeyCreate env d m).d.id = d.id := by
    unfold resourceSecureKeyCreate
    simp only [hspec, Value.assertString]
    repeat' (first | split | dsimp only)
    all_goals exact ⟨⟨_, rfl⟩, rfl, rfl⟩
  obtain ⟨⟨msg, hmsg⟩, hc, hd⟩ := h
  exact ⟨fun err => by rw [hmsg]; simp, hc, hd⟩

/-- The witness of C4: against a backend that answers every request with
500, and for a name with a control character in it, a Create on the declared
schema panics and returns neither the error of the call nor that of the
request construction. -/
theorem resourceSecureKeyCreate_returns_no_error_witness :
    (resourceSecureKeyCreate specEnv (keyState "k")
        (.config (configOf (constClient 500 "boom")))).out
      = .panic "interface conversion: interface \x7b\x7d is nil, not string" ∧
    (resourceSecureKeyCreate specEnv (keyState "k")
        (.config (configOf (constClient 500 "boom")))).out
      ≠ .ret (some (.RemoteCallError (some 500) (utf8 "boom"))) ∧
    (resourceSecureKeyCreate specEnv (keyState "k\n")
        (.config (configOf (constClient 200 "")))).out
      ≠ .ret (some (.RequestConstructionError "net/url: invalid control character in URL")) ∧
    (resourceSecureKeyCreate specEnv (keyState "k")
        (.config (configOf (constClient 500 "boom")))).calls = [] :=
  ⟨rfl,
   (resourceSecureKeyCreate_returns_no_error specEnv (keyState "k")
      (.config (configOf (constClient 500 "boom"))) rfl).1 _,
   (resourceSecureKeyCreate_returns_no_error specEnv (keyState "k\n")
      (.config (configOf (constClient 200 ""))) rfl).1 _,
   (resourceSecureKeyCreate_returns_no_error specEnv (keyState "k")
      (.config (configOf (constClient 500 "boom"))) rfl).2.1⟩

/-- C2, on the code: the body of every request that
`resourceSecureKeyCreate` issues is the value of the attribute `spec`; the
declared schema has no such attribute, so on a state of the declared schema
`spec` reads as `nil` and Create issues no request at all. -/
theorem resourceSecureKeyCreate_body_is_spec (env : Env) (d : ResourceData) (m : Handle) :
    (∀ req ∈ (resourceSecureKeyCreate env d m).calls,
      ∃ spec, d.Get "spec" = .str spec ∧ req.Body = some spec) ∧
    (d.schema = (resourceSecureKey env).Schema →
      d.Get "spec" = .nil ∧ (resourceSecureKeyCreate env d m).calls = []) := by
  constructor
  · intro req hmem
    cases m with
    | other tag => simp [resourceSecureKeyCreate, Handle.assertConfig] at hmem
    | config config =>
      cases hname : d.Get "name" with
      | nil =>
        simp [resourceSecureKeyCreate, Handle.assertConfig, Value.assertString, hname] at hmem
      | map mp =>
        simp [resourceSecureKeyCreate, Handle.assertConfig, Value.assertString, hname] at hmem
      | str name =>
        cases hns : d.Get "namespace" with
        | nil =>
          simp [resourceSecureKeyCreate, Handle.assertConfig, Value.assertString, hname, hns]
            at hmem
        | map mp =>
          simp [resourceSecureKeyCreate, Handle.assertConfig, Value.assertString, hname, hns]
            at hmem
        | str ns =>
          cases hspec : d.Get "spec" with
          | nil =>
            simp [resourceSecureKeyCreate, Handle.assertConfig, Value.assertString, hname, hns,
              hspec] at hmem
          | map mp =>
            simp [resourceSecureKeyCreate, Handle.assertConfig, Value.assertString, hname, hns,
              hspec] at hmem
          | str spec =>
            refine ⟨spec, rfl, ?_⟩
            cases hreq : NewRequest env "PUT"
                (env.urlJoin config.host ["/v3/namespaces", ns, "/securekeys", name])
                (some spec) with
            | error err =>
              simp [resourceSecureKeyCreate, Handle.assertConfig, Value.assertString, hname,
                hns, hspec, hreq] at hmem
            | ok req1 =>
              have hr := NewRequest_ok _ _ _ _ _ hreq
              cases hcall : env.httpCall config.httpClient req1 with
              | error err =>
                simp [resourceSecureKeyCreate, Handle.assertConfig, Value.assertString, hname,
                  hns, hspec, hreq, hcall] at hmem
                subst hmem; subst hr; rfl
              | ok b =>
                simp [resourceSecureKeyCreate, Handle.assertConfig, Value.assertString, hname,
                  hns, hspec, hreq, hcall] at hmem
                subst hmem; subst hr; rfl
  · intro hs
    have hspec := Get_spec_of_declared env d hs
    refine ⟨hspec, ?_⟩
    unfold resourceSecureKeyCreate
    simp only [hspec, Value.assertString]
    repeat' (first | split | dsimp only)

/-- The witness of C2: for the key `k` with a secret, a description and a
property, `spec` reads as `nil` and Create issues no request. -/
theorem resourceSecureKeyCreate_body_is_spec_witness :
    (keyState "k").Get "data" = .str "s3cret" ∧
    (keyState "k").Get "spec" = .nil ∧
    (resourceSecureKeyCreate specEnv (keyState "k")
      (.config (configOf (constClient 200 "")))).calls = [] :=
  ⟨rfl,
   (resourceSecureKeyCreate_body_is_spec specEnv (keyState "k")
      (.config (configOf (constClient 200 "")))).2 rfl⟩

/-- C3, on the code: on every state of the declared schema
`resourceSecureKeyCreate` panics, so it does not return `nil`, and it leaves
the resource data, its identifier included, as it was, whatever the backend
would answer. -/
theorem resourceSecureKeyCreate_declared_schema (env : Env) (d : ResourceData) (m : Handle)
    (hs : d.schema = (resourceSecureKey env).Schema) :
    (∃ msg, (resourceSecureKeyCreate env d m).out = .panic msg) ∧
    (resourceSecureKeyCreate env d m).out ≠ .ret none ∧
    (resourceSecureKeyCreate env d m).d = d := by
  have hspec := Get_spec_of_declared env d hs
  have h : (∃ msg, (resourceSecureKeyCreate env d m).out = .panic msg) ∧
      (resourceSecureKeyCreate env d m).d = d := by
    unfold resourceSecureKeyCreate
    simp only [hspec, Value.assertString]
    repeat' (first | split | dsimp only)
    all_goals exact ⟨⟨_, rfl⟩, rfl⟩
  obtain ⟨⟨msg, hmsg⟩, hd⟩ := h
  exact ⟨⟨msg, hmsg⟩, by rw [hmsg]; simp, hd⟩

/-- The witness of C3: against a backend that answers every request with 200,
a Create of the key `k` panics on the assertion of `spec` and the identifier
stays empty. -/
theorem resourceSecureKeyCreate_declared_schema_witness :
    (keyState "k").wellTyped = true ∧
    (resourceSecureKeyCreate specEnv (keyState "k")
        (.config (configOf (constClient 200 "")))).out
      = .panic "interface conversion: interface \x7b\x7d is nil, not string" ∧
    (resourceSecureKeyCreate specEnv (keyState "k")
        (.config (configOf (constClient 200 "")))).d.id = "" ∧
    (resourceSecureKeyCreate specEnv (keyState "k")
        (.config (configOf (constClient 200 "")))).out ≠ .ret none :=
  ⟨rfl, rfl, rfl,
   (resourceSecureKeyCreate_declared_schema specEnv (keyState "k")
      (.config (configOf (constClient 200 ""))) rfl).2.1⟩

end Cdap
